import Mathlib

/-!
Verification of the fbc-filter core (`src/main.go` plus `src/api/config/v1/filter.go`)
against its natural-language specification.

The Go program filters a catalog model (packages → channels → bundles linked by
"replaces" and "skips" edges) according to a declarative `FilterConfiguration`.
This file shallowly embeds the relevant functions of `main.go`:

* `filterBundles` (lines 190–260) — the head-search, tail-search and collection
  loops over a channel's replaces chain, embedded as the fueled functions
  `headLoop`, `tailLoop` and `collectLoop` composed by `filterBundlesCore` /
  `filterBundles`.
* `isOrContainsBundleInVersionRange` (lines 262–279) — the recursive
  range-reachability check, embedded with explicit fuel (`none` = the Go code
  would still be running after `fuel` recursive descents).
* `setDefaultChannel` (lines 162–188), `filterChannels` (144–160),
  `filterPackages` (131–142) and the orchestration loop of `filterV1` (89–129).
* the configuration-discriminator check of `main` (lines 40–43).

External collaborators (the Masterminds semver constraint evaluator, the
operator-registry `model.Channel.Head` and `model.Model.Validate`) are not part
of this repository; they are represented at their interface: a parsed range is
an opaque membership predicate `RangeCheck`, parsing is an explicit
`parse : String → Except String RangeCheck` parameter, and `Channel.head` /
`validateModel` are modelled from the spec's description of those contracts.

Go maps keyed by name are embedded as lists with name lookup (`find?`); Go's
pointer comparison `cur != tail` between bundles drawn from one channel map is
embedded as name comparison (`sameBundle`), which agrees with pointer equality
because map keys are unique.
-/

namespace FbcFilter

/-- A semantic version as used by the bundles of the catalog model
(major, minor, patch).  Pre-release and build identifiers play no role in any
of the properties below, and the constraint evaluator is abstract
(`RangeCheck`), so they are omitted from the embedding. -/
structure Version where
  major : Nat
  minor : Nat
  patch : Nat
deriving DecidableEq, Repr

/-- Rendering of a version, matching `mmsemver.Version.String()` for versions
without pre-release/build identifiers (used in warning messages). -/
def Version.toStr (v : Version) : String :=
  toString v.major ++ "." ++ toString v.minor ++ "." ++ toString v.patch

/-- Lexicographic strict order on versions. -/
def Version.lt (a b : Version) : Bool :=
  Nat.blt a.major b.major ||
    (a.major == b.major &&
      (Nat.blt a.minor b.minor || (a.minor == b.minor && Nat.blt a.patch b.patch)))

/-- Comparison `a ≥ b` on versions. -/
def Version.ge (a b : Version) : Bool := !(Version.lt a b)

/-- A parsed version range: the membership predicate produced by the external
`mmsemver.NewConstraint(...)`, i.e. what `versionRange.Check` evaluates. -/
abbrev RangeCheck := Version → Bool

/-- Go's `%q` formatting of a string (as used in all messages of `main.go`). -/
def quoted (s : String) : String := "\"" ++ s ++ "\""

namespace model

/-- The source type `model.Bundle` (the fields read by `main.go`): name, version, optional
`replaces` reference by name (`""` = absent) and `skips` name list. -/
structure Bundle where
  name : String
  version : Version
  replaces : String
  skips : List String
deriving DecidableEq, Repr

/-- The source type `model.Channel` (the fields read by `main.go`): name, the back-reference
`ch.Package.Name`, and the bundle map `ch.Bundles`, embedded as a list keyed by
bundle name. -/
structure Channel where
  name : String
  pkgName : String
  bundles : List Bundle
deriving DecidableEq, Repr

/-- Map lookup `ch.Bundles[n]` (the `, ok` form: `none` = key absent). -/
def Channel.find (ch : Channel) (n : String) : Option Bundle :=
  ch.bundles.find? (fun b => b.name == n)

/-- Modelled from the spec: the external `model.Channel.Head` of
operator-registry (§4.2 `BundleChain.head`), which is not part of this
repository.  Per the spec it returns the unique bundle not referenced as the
"replaces" target of any other bundle in the channel and fails
(`AmbiguousOrMissingHead`) when zero or more than one candidate exists. -/
def Channel.head (ch : Channel) : Except String Bundle :=
  match ch.bundles.filter (fun b => !(ch.bundles.any (fun b2 => b2.replaces == b.name))) with
  | [b] => .ok b
  | [] => .error "no channel head found in graph"
  | _ => .error "multiple channel heads found in graph"

/-- The source type `model.Package` (the fields read by `main.go`): name, the default channel
reference `p.DefaultChannel` (a pointer in Go; embedded by its name, which is
all `main.go` reads or assigns through it), and the channel map. -/
structure Package where
  name : String
  defaultChannel : String
  channels : List Channel
deriving DecidableEq, Repr

/-- Map lookup `p.Channels[n]`. -/
def Package.findChannel (p : Package) (n : String) : Option Channel :=
  p.channels.find? (fun ch => ch.name == n)

end model

/-- The source type `model.Model`: map from package name to package, embedded as a list keyed
by package name. -/
abbrev Model := List model.Package

namespace v1

/-- The configuration type `v1.Channel` of `api/config/v1/filter.go`. -/
structure Channel where
  name : String
  versionRange : String
deriving DecidableEq, Repr

/-- The configuration type `v1.Package` of `api/config/v1/filter.go` (`""` = no default-channel
override). -/
structure Package where
  name : String
  defaultChannel : String
  channels : List Channel
deriving DecidableEq, Repr

/-- The configuration type `v1.FilterConfiguration` of `api/config/v1/filter.go` (`TypeMeta` inlined
as its two fields). -/
structure FilterConfiguration where
  kind : String
  apiVersion : String
  packages : List Package
deriving DecidableEq, Repr

end v1

/-- The condition of `main.go` line 40 under which the program prints
"invalid configuration file: …" and exits: note the source uses `&&`, so the
check fires only when *both* discriminator fields mismatch. -/
def invalidConfigCondition (c : v1.FilterConfiguration) : Bool :=
  c.kind != "FilterConfiguration" && c.apiVersion != "olm.operatorframework.io/v1"

/-- The warning of `filterBundles` line 243 (formatted as by `warnf`). -/
def includeWarnMsg (bundleName verStr chName pkgName rangeStr : String) : String :=
  "including bundle " ++ quoted bundleName ++ " with version " ++ quoted verStr ++
    " in channel " ++ quoted chName ++ " for package " ++ quoted pkgName ++
    ": it falls outside the specified range of " ++ quoted rangeStr ++
    " but is required to ensure inclusion of all bundles in the range"

/-- The `NoBundlesInRange` error of `filterBundles` line 256. -/
def noBundlesMsg (chName pkgName rangeStr : String) : String :=
  "invalid filter configuration: no bundles in channel " ++ quoted chName ++
    " for package " ++ quoted pkgName ++ " matched the version range " ++ quoted rangeStr

/-- The warning of `setDefaultChannel` line 178. -/
def overrideIgnoredWarn (override : String) : String :=
  "specified default channel override " ++ quoted override ++
    " does not exist, keeping original default channel from catalog"

/-- The `DefaultChannelUnresolvable` error of `setDefaultChannel` line 180. -/
def DefaultChannelUnresolvable (override orig : String) : String :=
  "specified default channel override " ++ quoted override ++
    " does not exist, and original default channel " ++ quoted orig ++ " does not exist"

/-- The `DefaultChannelRequired` error of `setDefaultChannel` line 185. -/
def DefaultChannelRequired (orig : String) : String :=
  "the default channel " ++ quoted orig ++
    " was filtered out, a new default channel must be configured in the FilterConfiguration for this package"

open model

/-- The inner scan over `cur.Skips` shared by the head-search loop
(lines 215–225) and `isOrContainsBundleInVersionRange` (lines 267–274): does
any *resolvable* skip target satisfy the range?  Unresolvable skips are
skipped (`continue`). -/
def skipMatches (check : RangeCheck) (ch : Channel) (b : Bundle) : Bool :=
  b.skips.any (fun s =>
    match ch.find s with
    | some sb => check sb.version
    | none => false)

/-- The head-search loop of `filterBundles` (lines 208–227): walk the replaces
chain from the channel head until a bundle satisfies the range directly
(`break` with `cur` still at that bundle) or via a resolvable skip (in which
case Go still executes `cur = ch.Bundles[cur.Replaces]` before the loop
condition `head == nil` stops it).  Returns `(head, cur-after-loop)`; the
result is `none` when the Go loop would still be running after `fuel`
iterations. -/
def headLoop (check : RangeCheck) (ch : Channel) :
    Nat → Option Bundle → Option (Option Bundle × Option Bundle)
  | _, none => some (none, none)
  | 0, some _ => none
  | fuel + 1, some cur =>
    if check cur.version then some (some cur, some cur)
    else if skipMatches check ch cur then some (some cur, ch.find cur.replaces)
    else headLoop check ch fuel (ch.find cur.replaces)

/-- The function `isOrContainsBundleInVersionRange` (lines 262–279): true when the bundle
itself satisfies the range, a resolvable skip target does, or (recursively)
its replaces predecessor does.  The Go recursion has no cycle guard, so it is
embedded with fuel: `none` means the recursion would still be running after
`fuel` descents into `replaces`. -/
def isOrContainsBundleInVersionRange (check : RangeCheck) (ch : Channel) :
    Nat → Bundle → Option Bool
  | 0, b =>
    if check b.version then some true
    else if skipMatches check ch b then some true
    else
      match ch.find b.replaces with
      | some _ => none
      | none => some false
  | fuel + 1, b =>
    if check b.version then some true
    else if skipMatches check ch b then some true
    else
      match ch.find b.replaces with
      | some rb => isOrContainsBundleInVersionRange check ch fuel rb
      | none => some false

/-- The tail-search loop of `filterBundles` (lines 228–235): continue from the
position reached by the head search until a bundle is found from which nothing
in range is reachable; that bundle is the exclusive tail boundary.  `none` =
the Go loop (or the recursion it calls) would still be running. -/
def tailLoop (check : RangeCheck) (ch : Channel) :
    Nat → Option Bundle → Option (Option Bundle)
  | _, none => some none
  | 0, some _ => none
  | fuel + 1, some cur =>
    match isOrContainsBundleInVersionRange check ch (fuel + 1) cur with
    | none => none
    | some true => tailLoop check ch fuel (ch.find cur.replaces)
    | some false => some (some cur)

/-- Result of running one of the embedded Go loops: `diverge` = the loop would
still be running after the given fuel, `nilPanic` = Go would dereference a nil
`*model.Bundle`, `ok` = the loop finished with this value. -/
inductive LoopRes (α : Type) where
  | diverge : LoopRes α
  | nilPanic : LoopRes α
  | ok : α → LoopRes α
deriving DecidableEq, Repr

/-- Go pointer comparison `cur != tail` (negated) between bundle pointers drawn
from one channel's bundle map: pointer equality coincides with name equality
because the map is keyed by name. -/
def sameBundle : Option Bundle → Option Bundle → Bool
  | none, none => true
  | some a, some b => a.name == b.name
  | _, _ => false

/-- Go map insert `bundles[b.Name] = b` for the collected set; since every
inserted bundle is drawn from `ch.Bundles` by name, re-inserting a name stores
the same bundle, so keep-first equals overwrite. -/
def insertBundle (acc : List Bundle) (b : Bundle) : List Bundle :=
  if acc.any (fun x => x.name == b.name) then acc else acc ++ [b]

/-- The inner skips scan of the collection loop (lines 246–253): add every
resolvable skip target that itself satisfies the range. -/
def collectSkips (check : RangeCheck) (ch : Channel) :
    List String → List Bundle → List Bundle
  | [], acc => acc
  | s :: rest, acc =>
    collectSkips check ch rest
      (match ch.find s with
       | some sb => if check sb.version then insertBundle acc sb else acc
       | none => acc)

/-- The collection loop of `filterBundles` (lines 239–254): walk from `head`
until `cur == tail` (pointer comparison, *not* a nil check), warn about every
chain bundle outside the range, insert it, and insert its in-range resolvable
skip targets.  `nilPanic` marks the state in which Go would dereference nil
(`cur = nil` while `tail ≠ nil`). -/
def collectLoop (check : RangeCheck) (ch : Channel) (rangeStr : String)
    (tail : Option Bundle) :
    Nat → Option Bundle → List Bundle → List String → LoopRes (List Bundle × List String)
  | fuel + 1, some c, bundles, warns =>
    if sameBundle (some c) tail then .ok (bundles, warns)
    else
      collectLoop check ch rangeStr tail fuel (ch.find c.replaces)
        (collectSkips check ch c.skips (insertBundle bundles c))
        (if check c.version then warns
         else warns ++ [includeWarnMsg c.name c.version.toStr ch.name ch.pkgName rangeStr])
  | _, none, bundles, warns =>
    if sameBundle none tail then .ok (bundles, warns) else .nilPanic
  | 0, some c, bundles, warns =>
    if sameBundle (some c) tail then .ok (bundles, warns) else .diverge

/-- The body of `filterBundles` after a successfully parsed range (lines 208–259): run the
three loops and either fail with `NoBundlesInRange` (line 256, leaving the
channel's bundle map untouched — the assignment `ch.Bundles = bundles` of line
258 is only reached on success) or replace the bundle map with the collected
set and return the emitted warnings. -/
def filterBundlesCore (check : RangeCheck) (rangeStr : String) (ch : Channel)
    (fuel : Nat) : LoopRes (Except String (Channel × List String)) :=
  match ch.head with
  | .error e =>
    .ok (.error ("error getting head of channel " ++ quoted ch.name ++ ": " ++ e))
  | .ok hd =>
    match headLoop check ch fuel (some hd) with
    | none => .diverge
    | some (head?, cur1) =>
      match tailLoop check ch fuel cur1 with
      | none => .diverge
      | some tail? =>
        match collectLoop check ch rangeStr tail? fuel head? [] [] with
        | .diverge => .diverge
        | .nilPanic => .nilPanic
        | .ok (bundles, warns) =>
          if bundles.isEmpty then
            .ok (.error (noBundlesMsg ch.name ch.pkgName rangeStr))
          else
            .ok (.ok ({ ch with bundles := bundles }, warns))

/-- The function `filterBundles` (lines 190–260), with range parsing — performed in Go by
the external `mmsemver.NewConstraint` — supplied as the `parse` parameter.
The head is resolved first (lines 198–201), then the range parsed
(lines 203–206), matching the source order. -/
def filterBundles (parse : String → Except String RangeCheck) (ch : Channel)
    (channelConfig : v1.Channel) (fuel : Nat) :
    LoopRes (Except String (Channel × List String)) :=
  match ch.head with
  | .error e =>
    .ok (.error ("error getting head of channel " ++ quoted ch.name ++ ": " ++ e))
  | .ok _ =>
    match parse channelConfig.versionRange with
    | .error e =>
      .ok (.error ("invalid version range " ++ quoted channelConfig.versionRange ++
        " for channel " ++ quoted ch.name ++ ": " ++ e))
    | .ok check => filterBundlesCore check channelConfig.versionRange ch fuel

/-- The function `setDefaultChannel` (lines 162–188).  In Go the function mutates
`p.DefaultChannel` and calls `warnf`; here it returns the updated package and
the list of emitted warnings, or the error. -/
def setDefaultChannel (p : Package) (pkgConfig : v1.Package) :
    Except String (Package × List String) :=
  let defaultChannelStillExists := (p.findChannel p.defaultChannel).isSome
  if pkgConfig.defaultChannel != "" then
    match p.findChannel pkgConfig.defaultChannel with
    | some configDefaultChannel =>
      .ok ({ p with defaultChannel := configDefaultChannel.name }, [])
    | none =>
      if defaultChannelStillExists then
        .ok (p, [overrideIgnoredWarn pkgConfig.defaultChannel])
      else
        .error (DefaultChannelUnresolvable pkgConfig.defaultChannel p.defaultChannel)
  else if !defaultChannelStillExists then
    .error (DefaultChannelRequired p.defaultChannel)
  else
    .ok (p, [])

/-- The function `filterChannels` (lines 144–160): prune channels not named in the
(non-empty) channel list, then resolve the default channel, wrapping its error
as on line 157. -/
def filterChannels (p : Package) (pkgConfig : v1.Package) :
    Except String (Package × List String) :=
  let p1 :=
    if pkgConfig.channels.length > 0 then
      { p with channels := p.channels.filter (fun ch =>
          (pkgConfig.channels.map (fun c => c.name)).contains ch.name) }
    else p
  match setDefaultChannel p1 pkgConfig with
  | .error e => .error ("invalid default channel filter configuration: " ++ e)
  | .ok r => .ok r

/-- The function `filterPackages` (lines 131–142): delete every package whose name is not
in the configured package list. -/
def filterPackages (m : Model) (packageConfigs : List v1.Package) : Model :=
  m.filter (fun pkg => (packageConfigs.map (fun p => p.name)).contains pkg.name)

/-- Modelled from the spec: the external `model.Model.Validate` of
operator-registry (§4.5 step 5), which is not part of this repository — a
structural validation pass requiring, per package, that the default channel is
present and every channel's head is resolvable. -/
def validatePackage (p : Package) : Bool :=
  (p.findChannel p.defaultChannel).isSome &&
    p.channels.all (fun ch =>
      match ch.head with
      | .ok _ => true
      | .error _ => false)

/-- Modelled from the spec: `m.Validate()` over the whole model (line 124). -/
def validateModel (m : Model) : Bool := m.all validatePackage

/-- The per-channel loop of `filterV1` (lines 111–122): look up each configured
channel (warn and continue when absent, line 114), and for a non-empty
`versionRange` run `filterBundles`, wrapping its error exactly as the source
does on line 119 — note the source passes `c.Name` (the *channel* name) to the
`"could not filter bundles in package %q"` format.  A successful
`filterBundles` replaces the channel in the package (the Go code mutates the
channel held in `pkgModel.Channels`). -/
def processChannels (parse : String → Except String RangeCheck) (fuel : Nat)
    (pkgName : String) :
    List v1.Channel → Package → LoopRes (Except String (Package × List String))
  | [], pkg => .ok (.ok (pkg, []))
  | c :: rest, pkg =>
    match pkg.findChannel c.name with
    | none =>
      match processChannels parse fuel pkgName rest pkg with
      | .ok (.ok (pkg', ws)) =>
        .ok (.ok (pkg', ("channel " ++ quoted c.name ++ " not found in package " ++
          quoted pkgName) :: ws))
      | r => r
    | some ch =>
      if c.versionRange != "" then
        match filterBundles parse ch c fuel with
        | .diverge => .diverge
        | .nilPanic => .nilPanic
        | .ok (.error e) =>
          .ok (.error ("could not filter bundles in package " ++ quoted c.name ++ ": " ++ e))
        | .ok (.ok (ch', ws1)) =>
          match processChannels parse fuel pkgName rest
              { pkg with channels := pkg.channels.map (fun x =>
                  if x.name == ch.name then ch' else x) } with
          | .ok (.ok (pkg', ws2)) => .ok (.ok (pkg', ws1 ++ ws2))
          | r => r
      else
        processChannels parse fuel pkgName rest pkg

/-- The per-package loop of `filterV1` (lines 99–123): look up each configured
package (warn and continue when absent, line 102), run `filterChannels`
(wrapping its error with the package name, line 107), then run the per-channel
loop and store the updated package back into the model. -/
def processPackages (parse : String → Except String RangeCheck) (fuel : Nat) :
    List v1.Package → Model → LoopRes (Except String (Model × List String))
  | [], m => .ok (.ok (m, []))
  | p :: rest, m =>
    match m.find? (fun pk => pk.name == p.name) with
    | none =>
      match processPackages parse fuel rest m with
      | .ok (.ok (m', ws)) =>
        .ok (.ok (m', ("package " ++ quoted p.name ++ " not found in catalog") :: ws))
      | r => r
    | some pkgModel =>
      match filterChannels pkgModel p with
      | .error e =>
        .ok (.error ("could not filter channels in package " ++ quoted p.name ++ ": " ++ e))
      | .ok (pkg1, ws1) =>
        match processChannels parse fuel p.name p.channels pkg1 with
        | .diverge => .diverge
        | .nilPanic => .nilPanic
        | .ok (.error e) => .ok (.error e)
        | .ok (.ok (pkg2, ws2)) =>
          match processPackages parse fuel rest
              (m.map (fun pk => if pk.name == p.name then pkg2 else pk)) with
          | .ok (.ok (m', ws3)) => .ok (.ok (m', ws1 ++ ws2 ++ ws3))
          | r => r

/-- The function `filterV1` at the model level (lines 95–128): filter packages, run the
per-package loop, then validate the resulting model (line 124; the validation
pass itself is external, see `validateModel`).  The conversions
`ConvertToModel`/`ConvertFromModel` at the boundary are external and
lossless for the properties below. -/
def filterV1Model (parse : String → Except String RangeCheck) (m : Model)
    (cfg : v1.FilterConfiguration) (fuel : Nat) :
    LoopRes (Except String (Model × List String)) :=
  let m1 := filterPackages m cfg.packages
  match processPackages parse fuel cfg.packages m1 with
  | .ok (.ok (m2, ws)) =>
    if validateModel m2 then .ok (.ok (m2, ws))
    else .ok (.error "filtered model is invalid")
  | r => r

/-- The replaces chain from a bundle reaches its end (a bundle whose
`replaces` does not resolve) within `fuel` steps.  This is the acyclicity
measure used to show the fueled loops terminate on well-formed channels. -/
def chainEnds (ch : Channel) : Nat → Bundle → Bool
  | 0, _ => false
  | fuel + 1, b =>
    match ch.find b.replaces with
    | none => true
    | some rb => chainEnds ch fuel rb

/-- The list of bundles the collection loop traverses: the replaces chain from
`cur` up to (excluding) `tail` (or to the chain end / fuel bound).  With
`tail = none` this is simply the replaces chain from `cur`. -/
def segList (ch : Channel) (tail : Option Bundle) :
    Nat → Option Bundle → List Bundle
  | fuel + 1, some c =>
    if sameBundle (some c) tail then []
    else c :: segList ch tail fuel (ch.find c.replaces)
  | _, none => []
  | 0, some _ => []

/-- Auxiliary substring scan. -/
def containsSubAux (needle : List Char) : List Char → Bool
  | [] => needle.isPrefixOf []
  | c :: rest => needle.isPrefixOf (c :: rest) || containsSubAux needle rest

/-- True when `needle` occurs as a contiguous substring of `hay`. -/
def containsSub (hay needle : String) : Bool :=
  containsSubAux needle.data hay.data

/-! ### Statement-side formalisation of spec claim §8 ("strictly between") -/

/-- Indices of the chain bundles satisfying the range (newest first, since the
chain is listed from the head down). -/
def inRangeIdxs (check : RangeCheck) (chain : List Bundle) : List Nat :=
  (List.range chain.length).filter (fun j =>
    match chain.get? j with
    | some x => check x.version
    | none => false)

/-- The bundle lies on the replaces chain strictly between the newest and the
oldest in-range bundle (the spec's wording for the coherence-retention case). -/
def liesStrictlyBetween (check : RangeCheck) (chain : List Bundle) (b : Bundle) : Bool :=
  match inRangeIdxs check chain, chain.findIdx? (fun x => x.name == b.name) with
  | [], _ => false
  | _, none => false
  | j :: js, some i => decide (j < i) && decide (i < (j :: js).getLast (by simp))

/-- The bundle is a skip target, satisfying the range, of some retained bundle. -/
def skipTargetOfRetained (check : RangeCheck) (retained : List Bundle) (b : Bundle) : Bool :=
  check b.version && retained.any (fun c => c.skips.contains b.name)

/-- Claim C1 as stated, as a decidable check: whenever `filterBundles`
succeeds, every retained bundle satisfies the range, or lies on the replaces
chain strictly between the newest and the oldest in-range bundle, or is an
in-range skip target of a retained bundle.  (Vacuously true when the filter
does not succeed.) -/
def c1ClaimHolds (check : RangeCheck) (rangeStr : String) (ch : Channel)
    (fuel : Nat) : Bool :=
  match filterBundlesCore check rangeStr ch fuel with
  | .ok (.ok (ch', _)) =>
    let chain :=
      match ch.head with
      | .ok h => segList ch none fuel (some h)
      | .error _ => []
    ch'.bundles.all (fun b =>
      check b.version || liesStrictlyBetween check chain b ||
        skipTargetOfRetained check ch'.bundles b)
  | _ => true

/-! ### Concrete instances for scenarios, witnesses and counterexamples -/

/-- Scenario B/C bundle v1.0.0. -/
def b10 : Bundle := ⟨"v1.0.0", ⟨1, 0, 0⟩, "", []⟩

/-- Scenario B/C bundle v1.1.0 (replaces v1.0.0). -/
def b11 : Bundle := ⟨"v1.1.0", ⟨1, 1, 0⟩, "v1.0.0", []⟩

/-- Scenario B/C bundle v2.0.0 (head, replaces v1.1.0). -/
def b20 : Bundle := ⟨"v2.0.0", ⟨2, 0, 0⟩, "v1.1.0", []⟩

/-- Scenario B/C channel "stable" of package "foo". -/
def chB : Channel := ⟨"stable", "foo", [b20, b11, b10]⟩

/-- The membership predicate of the range `">=1.1.0"`. -/
def ge110 : RangeCheck := fun v => Version.ge v ⟨1, 1, 0⟩

/-- The membership predicate of the unsatisfiable range `">=2.0.0 <2.0.0"`. -/
def unsatRange : RangeCheck := fun v =>
  Version.ge v ⟨2, 0, 0⟩ && Version.lt v ⟨2, 0, 0⟩

/-- Scenario E bundle v1.2.0 (the skip target). -/
def e12 : Bundle := ⟨"v1.2.0", ⟨1, 2, 0⟩, "", []⟩

/-- Scenario E bundle v1.5.0 (out of range, between head and skip target). -/
def e15 : Bundle := ⟨"v1.5.0", ⟨1, 5, 0⟩, "v1.2.0", []⟩

/-- Scenario E bundle v2.0.0 (head, skips v1.2.0). -/
def e20 : Bundle := ⟨"v2.0.0", ⟨2, 0, 0⟩, "v1.5.0", ["v1.2.0"]⟩

/-- Scenario E channel. -/
def chE : Channel := ⟨"stable", "foo", [e20, e15, e12]⟩

/-- Scenario E range: satisfied by v2.0.0 and by the skip target v1.2.0 but
not by v1.5.0 (the claim describes v1.2.0 as an *in-range* skip target). -/
def chkE : RangeCheck := fun v => Version.ge v ⟨2, 0, 0⟩ || v == ⟨1, 2, 0⟩

/-- Scenario E range expression. -/
def rsE : String := ">=2.0.0 || 1.2.0"

/-- C1 counterexample: head v3.0.0, out of range, both replacing and skipping
the only in-range bundle v1.2.0. -/
def cxa : Bundle := ⟨"v3.0.0", ⟨3, 0, 0⟩, "v1.2.0", ["v1.2.0"]⟩

/-- C1 counterexample: the in-range bundle v1.2.0. -/
def cxb : Bundle := ⟨"v1.2.0", ⟨1, 2, 0⟩, "", []⟩

/-- C1 counterexample channel. -/
def chCx : Channel := ⟨"stable", "foo", [cxa, cxb]⟩

/-- C1 counterexample range: exactly version 1.2.0. -/
def chkCx : RangeCheck := fun v => v == ⟨1, 2, 0⟩

/-- A range satisfied by no version (for the divergence counterexample). -/
def falseCheck : RangeCheck := fun _ => false

/-- C5 counterexample: a resolvable head whose chain descends into a cycle. -/
def cyH : Bundle := ⟨"h", ⟨2, 0, 0⟩, "a", []⟩

/-- C5 counterexample: cycle member a (replaces b). -/
def cyA : Bundle := ⟨"a", ⟨1, 0, 0⟩, "b", []⟩

/-- C5 counterexample: cycle member b (replaces a). -/
def cyB : Bundle := ⟨"b", ⟨1, 1, 0⟩, "a", []⟩

/-- C5 counterexample channel: head resolves (only `h` has no incoming
replaces edge) yet the replaces graph contains the cycle a ↔ b. -/
def chCy3 : Channel := ⟨"c", "p", [cyH, cyA, cyB]⟩

/-- The embedded recursion of `isOrContainsBundleInVersionRange` is still
running after every fuel bound, i.e. the Go recursion never returns. -/
def iOCDiverges (check : RangeCheck) (ch : Channel) (b : Bundle) : Prop :=
  ∀ fuel, isOrContainsBundleInVersionRange check ch fuel b = none

/-- A channel "a" of package "p" (for the package-level witnesses). -/
def chanA : Channel := ⟨"a", "p", [b10]⟩

/-- Package "p" with default channel "a" present. -/
def pkgP : Package := ⟨"p", "a", [chanA]⟩

/-- Package "p" whose recorded default channel "gone" is absent. -/
def pkgGone : Package := ⟨"p", "gone", [chanA]⟩

/-- The version-range parser used in closed evaluations: stands for
`mmsemver.NewConstraint`, accepting `">=1.1.0"` and rejecting anything else
with the `improper constraint` syntax error. -/
def parseStub : String → Except String RangeCheck := fun s =>
  if s == ">=1.1.0" then .ok ge110 else .error ("improper constraint: " ++ s)

/-- C6 failing input: channel "chanx" of package "pkga". -/
def chanX : Channel := ⟨"chanx", "pkga", [⟨"x.v1", ⟨1, 0, 0⟩, "", []⟩]⟩

/-- C6 failing input: the catalog model holding package "pkga". -/
def mC6 : Model := [⟨"pkga", "chanx", [chanX]⟩]

/-- C6 failing input: configuration giving channel "chanx" the malformed
range `"bogus"`. -/
def cfgC6 : v1.FilterConfiguration :=
  ⟨"FilterConfiguration", "olm.operatorframework.io/v1",
   [⟨"pkga", "", [⟨"chanx", "bogus"⟩]⟩]⟩

/-- The error `filterV1` produces on the C6 failing input. -/
def c6msg : String :=
  "could not filter bundles in package \"chanx\": invalid version range \"bogus\" for channel \"chanx\": improper constraint: bogus"

/-- C7 failing input: correct kind, mismatched apiVersion. -/
def cfgC7 : v1.FilterConfiguration :=
  ⟨"FilterConfiguration", "olm.operatorframework.io/v2", []⟩

/-- C8 counterexample configuration: names package "p" (present), carries no
version range anywhere, but lists a channel name ("b") that prunes away the
default channel. -/
def cfgC8 : v1.FilterConfiguration :=
  ⟨"FilterConfiguration", "olm.operatorframework.io/v1",
   [⟨"p", "", [⟨"b", ""⟩]⟩]⟩

/-- The error `filterV1` produces on the C8 counterexample. -/
def c8msg : String :=
  "could not filter channels in package \"p\": invalid default channel filter configuration: the default channel \"a\" was filtered out, a new default channel must be configured in the FilterConfiguration for this package"

/-- C8 witness configuration: names package "p", no channel specs, no
default-channel override. -/
def cfgC8W : v1.FilterConfiguration :=
  ⟨"FilterConfiguration", "olm.operatorframework.io/v1", [⟨"p", "", []⟩]⟩

/-- C10 witness: a single-bundle channel. -/
def w1 : Bundle := ⟨"w.v1", ⟨1, 0, 0⟩, "", []⟩

/-- C10 witness channel "alpha" of package "bar". -/
def chW : Channel := ⟨"alpha", "bar", [w1]⟩

/-! ## Lemmas about the embedded loops -/

/-- The head-search loop on an exhausted chain: `cur = nil` ends the loop with
no head found, independent of fuel. -/
theorem headLoop_exhausted (check : RangeCheck) (ch : Channel) :
    ∀ fuel, headLoop check ch fuel none = some (none, none) := by
  intro fuel
  cases fuel <;> rfl

/-- The tail-search loop started at `nil` finds no tail, independent of fuel. -/
theorem tailLoop_exhausted (check : RangeCheck) (ch : Channel) :
    ∀ fuel, tailLoop check ch fuel none = some none := by
  intro fuel
  cases fuel <;> rfl

/-- The collection loop with `head = nil` and `tail = nil` runs zero
iterations: the loop condition `cur != tail` fails immediately. -/
theorem collectLoop_nil_nil (check : RangeCheck) (ch : Channel) (rs : String) :
    ∀ fuel acc ws, collectLoop check ch rs none fuel none acc ws = .ok (acc, ws) := by
  intro fuel acc ws
  cases fuel <;> rfl

/-- If no bundle on the (acyclic) replaces chain from `b` satisfies the range
directly or via a resolvable skip, the head-search loop exhausts the chain and
leaves both the retained head and the cursor at `nil`. -/
theorem headLoop_no_match (check : RangeCheck) (ch : Channel) :
    ∀ fuel (b : Bundle), chainEnds ch fuel b = true →
      (∀ x ∈ segList ch none fuel (some b),
        check x.version = false ∧ skipMatches check ch x = false) →
      headLoop check ch fuel (some b) = some (none, none) := by
  intro fuel
  induction fuel with
  | zero =>
    intro b hb _
    simp [chainEnds] at hb
  | succ fuel ih =>
    intro b hb hseg
    have hbmem : b ∈ segList ch none (fuel + 1) (some b) := by
      simp [segList, sameBundle]
    obtain ⟨hchk, hskip⟩ := hseg b hbmem
    rw [headLoop, hchk, hskip]
    simp only [Bool.false_eq_true, if_false]
    cases hfind : ch.find b.replaces with
    | none => exact headLoop_exhausted check ch fuel
    | some rb =>
      have hb' : chainEnds ch fuel rb = true := by
        rw [chainEnds, hfind] at hb
        exact hb
      refine ih rb hb' ?_
      intro x hx
      refine hseg x ?_
      simp only [segList, sameBundle, if_false]
      rw [hfind]
      exact List.mem_cons_of_mem _ hx

/-- On an acyclic chain (one that reaches its end within the given fuel) the
embedded reachability recursion returns a result: the Go recursion
terminates. -/
theorem iOC_isSome_of_chainEnds (check : RangeCheck) (ch : Channel) :
    ∀ fuel b, chainEnds ch fuel b = true →
      (isOrContainsBundleInVersionRange check ch fuel b).isSome = true := by
  intro fuel
  induction fuel with
  | zero =>
    intro b hb
    simp [chainEnds] at hb
  | succ fuel ih =>
    intro b hb
    rw [isOrContainsBundleInVersionRange]
    by_cases h1 : check b.version
    · simp [h1]
    · by_cases h2 : skipMatches check ch b
      · simp [h1, h2]
      · simp only [h1, h2, Bool.false_eq_true, if_false]
        cases hfind : ch.find b.replaces with
        | none => rfl
        | some rb =>
          rw [chainEnds, hfind] at hb
          exact ih rb hb

/-- Membership after a map insert: the element was present or is the inserted
bundle. -/
theorem mem_insertBundle {acc : List Bundle} {x b : Bundle}
    (h : b ∈ insertBundle acc x) : b ∈ acc ∨ b = x := by
  unfold insertBundle at h
  split at h
  · exact Or.inl h
  · rcases List.mem_append.mp h with h' | h'
    · exact Or.inl h'
    · right
      simpa using h'

/-- Membership after the skips scan: the element was present, or it is an
in-range resolvable skip target of the scanned skips list. -/
theorem mem_collectSkips (check : RangeCheck) (ch : Channel) :
    ∀ (skips : List String) (acc : List Bundle) (b : Bundle),
      b ∈ collectSkips check ch skips acc →
      b ∈ acc ∨ (check b.version = true ∧ ∃ s ∈ skips, ch.find s = some b) := by
  intro skips
  induction skips with
  | nil =>
    intro acc b hb
    exact Or.inl hb
  | cons s rest ih =>
    intro acc b hb
    rw [collectSkips] at hb
    cases hfind : ch.find s with
    | none =>
      simp only [hfind] at hb
      rcases ih _ b hb with h | ⟨hc, s', hs', hf⟩
      · exact Or.inl h
      · exact Or.inr ⟨hc, s', List.mem_cons_of_mem _ hs', hf⟩
    | some sb =>
      simp only [hfind] at hb
      by_cases hchk : check sb.version
      · rw [if_pos hchk] at hb
        rcases ih _ b hb with h | ⟨hc, s', hs', hf⟩
        · rcases mem_insertBundle h with h' | h'
          · exact Or.inl h'
          · subst h'
            exact Or.inr ⟨hchk, s, List.mem_cons_self _ _, hfind⟩
        · exact Or.inr ⟨hc, s', List.mem_cons_of_mem _ hs', hf⟩
      · rw [if_neg hchk] at hb
        rcases ih _ b hb with h | ⟨hc, s', hs', hf⟩
        · exact Or.inl h
        · exact Or.inr ⟨hc, s', List.mem_cons_of_mem _ hs', hf⟩

/-- Everything the collection loop returns is either carried in from the
accumulator, lies on the traversed chain segment, or is an in-range resolvable
skip target of a segment bundle. -/
theorem collectLoop_ok_mem (check : RangeCheck) (ch : Channel) (rs : String)
    (tail : Option Bundle) :
    ∀ fuel (cur : Option Bundle) (acc : List Bundle) (ws : List String)
      (bundles : List Bundle) (warns : List String),
      collectLoop check ch rs tail fuel cur acc ws = .ok (bundles, warns) →
      ∀ b ∈ bundles,
        b ∈ acc ∨ b ∈ segList ch tail fuel cur ∨
          (check b.version = true ∧
            ∃ c ∈ segList ch tail fuel cur, ∃ s ∈ c.skips, ch.find s = some b) := by
  intro fuel
  induction fuel with
  | zero =>
    intro cur acc ws bundles warns h b hb
    cases cur with
    | none =>
      rw [collectLoop] at h
      split at h
      · cases h
        exact Or.inl hb
      · cases h
    | some c =>
      rw [collectLoop] at h
      split at h
      · cases h
        exact Or.inl hb
      · cases h
  | succ fuel ih =>
    intro cur acc ws bundles warns h b hb
    cases cur with
    | none =>
      rw [collectLoop] at h
      split at h
      · cases h
        exact Or.inl hb
      · cases h
    | some c =>
      rw [collectLoop] at h
      split at h
      · cases h
        exact Or.inl hb
      · rename_i hne
        have hseg : segList ch tail (fuel + 1) (some c) =
            c :: segList ch tail fuel (ch.find c.replaces) := by
          rw [segList, if_neg hne]
        rcases ih _ _ _ _ _ h b hb with hmem | hmem | ⟨hchk, c', hc', hsk⟩
        · rcases mem_collectSkips check ch _ _ _ hmem with hmem' | ⟨hchk, s, hs, hfind⟩
          · rcases mem_insertBundle hmem' with h' | h'
            · exact Or.inl h'
            · subst h'
              rw [hseg]
              exact Or.inr (Or.inl (List.mem_cons_self _ _))
          · rw [hseg]
            exact Or.inr (Or.inr ⟨hchk, c, List.mem_cons_self _ _, s, hs, hfind⟩)
        · rw [hseg]
          exact Or.inr (Or.inl (List.mem_cons_of_mem _ hmem))
        · rw [hseg]
          exact Or.inr (Or.inr ⟨hchk, c', List.mem_cons_of_mem _ hc', hsk⟩)

/-- The warnings the collection loop emits are exactly one warning per
traversed chain-segment bundle that does not itself satisfy the range, in
traversal order; skip targets added to the result never produce a warning. -/
theorem collectLoop_ok_warns (check : RangeCheck) (ch : Channel) (rs : String)
    (tail : Option Bundle) :
    ∀ fuel (cur : Option Bundle) (acc : List Bundle) (ws : List String)
      (bundles : List Bundle) (warns : List String),
      collectLoop check ch rs tail fuel cur acc ws = .ok (bundles, warns) →
      warns = ws ++ ((segList ch tail fuel cur).filter (fun b => !check b.version)).map
          (fun b => includeWarnMsg b.name b.version.toStr ch.name ch.pkgName rs) := by
  intro fuel
  induction fuel with
  | zero =>
    intro cur acc ws bundles warns h
    cases cur with
    | none =>
      rw [collectLoop] at h
      split at h
      · cases h
        simp [segList]
      · cases h
    | some c =>
      rw [collectLoop] at h
      split at h
      · cases h
        simp [segList]
      · cases h
  | succ fuel ih =>
    intro cur acc ws bundles warns h
    cases cur with
    | none =>
      rw [collectLoop] at h
      split at h
      · cases h
        simp [segList]
      · cases h
    | some c =>
      rw [collectLoop] at h
      split at h
      · cases h
        rename_i hsame
        rw [segList, if_pos hsame]
        simp
      · rename_i hne
        have := ih _ _ _ _ _ h
        rw [segList, if_neg hne]
        by_cases hchk : check c.version
        · rw [if_pos hchk] at this
          simp only [List.filter_cons, hchk, Bool.not_true, List.map_cons]
          simpa using this
        · rw [if_neg hchk] at this
          simp only [List.filter_cons, Bool.not_eq_true', hchk, Bool.not_false,
            List.map_cons]
          rw [this, List.append_assoc]
          rfl

/-! ## Claim theorems -/

/-- C7: refuted by evaluation — the claim says that a configuration whose kind
*or* apiVersion mismatches is rejected before rendering, but the source
condition (line 40) conjoins the two mismatches with `&&`.  On `cfgC7`, whose
apiVersion differs from `olm.operatorframework.io/v1` while the kind is
correct, the fatal-error condition evaluates to `false`, so the program
proceeds to render and filter. -/
theorem c7_single_mismatch_not_fatal :
    (cfgC7.apiVersion == "olm.operatorframework.io/v1") = false ∧
      invalidConfigCondition cfgC7 = false := by
  exact ⟨by decide, by decide⟩

/-- C6: refuted by evaluation — when `filterBundles` fails for channel
"chanx" of package "pkga", `filterV1` wraps the error (line 119) passing
`c.Name` (the channel name) to the `"could not filter bundles in package %q"`
format, so the resulting error names the channel twice and never contains the
package name "pkga", contradicting the claim that the error is annotated with
both the package and the channel name. -/
theorem c6_channel_error_lacks_package_name :
    filterV1Model parseStub mC6 cfgC6 10 = .ok (.error c6msg) ∧
      containsSub c6msg "chanx" = true ∧
      containsSub c6msg "pkga" = false := by
  refine ⟨rfl, by decide, by decide⟩

/-- C5 counterexample: channel `chCy3` has a perfectly resolvable head (`cyH`
is the only bundle with no incoming replaces edge), yet the replaces chain
below it enters the cycle a ↔ b, and on it the reachability recursion of
`isOrContainsBundleInVersionRange` runs forever — no fuel bound suffices and
no `InvalidChannel` error is produced, refuting the claim that the core never
infinite-loops on pathological input. -/
theorem c5_counterexample_cycle :
    chCy3.head = .ok cyH ∧ iOCDiverges falseCheck chCy3 cyA := by
  constructor
  · rfl
  · have key : ∀ fuel,
        isOrContainsBundleInVersionRange falseCheck chCy3 fuel cyA = none ∧
        isOrContainsBundleInVersionRange falseCheck chCy3 fuel cyB = none := by
      intro fuel
      induction fuel with
      | zero => exact ⟨rfl, rfl⟩
      | succ fuel ih =>
        refine ⟨?_, ?_⟩
        · show isOrContainsBundleInVersionRange falseCheck chCy3 fuel cyB = none
          exact ih.2
        · show isOrContainsBundleInVersionRange falseCheck chCy3 fuel cyA = none
          exact ih.1
    intro fuel
    exact (key fuel).1

/-- C5 (amended): the reachability recursion terminates on every channel whose
replaces chain from the starting bundle reaches its end (is acyclic) — fuel
equal to the chain-length bound suffices; on cyclic input the recursion does
not terminate and there is no `InvalidChannel` guard (see the
counterexample). -/
theorem c5_terminates_on_acyclic_chains :
    ∀ (check : RangeCheck) (ch : Channel) (fuel : Nat) (b : Bundle),
      chainEnds ch fuel b = true →
      (isOrContainsBundleInVersionRange check ch fuel b).isSome = true := by
  intro check ch fuel b h
  exact iOC_isSome_of_chainEnds check ch fuel b h

/-- Witness for C5's amended theorem at the concrete acyclic Scenario B
chain. -/
theorem c5_terminates_on_acyclic_chains_witness :
    chainEnds chB 10 b20 = true ∧
      (isOrContainsBundleInVersionRange ge110 chB 10 b20).isSome = true :=
  ⟨by decide, c5_terminates_on_acyclic_chains ge110 chB 10 b20 (by decide)⟩

/-- C9: a well-formed configuration whose `packages` list is empty removes
every package: `filterPackages` deletes all of them, the per-package loop does
nothing, the empty model validates, and the result is the empty catalog with
no warnings — for every input catalog. -/
theorem c9_empty_config_removes_all_packages :
    ∀ (parse : String → Except String RangeCheck) (m : Model)
      (kind apiVersion : String) (fuel : Nat),
      filterV1Model parse m ⟨kind, apiVersion, []⟩ fuel = .ok (.ok ([], [])) := by
  intro parse m kind apiVersion fuel
  have h1 : filterPackages m ([] : List v1.Package) = [] := by
    rw [filterPackages]
    refine List.filter_eq_nil_iff.mpr ?_
    intro pkg _
    simp [List.contains]
  rw [filterV1Model]
  simp only [h1]
  rfl

/-- C2: the default-channel resolution of `setDefaultChannel` follows the
claimed priority exactly: (1) an override naming a surviving channel is
adopted; (2) an override naming an absent channel keeps a surviving original
default with one warning, and fails with `DefaultChannelUnresolvable` when the
original default is also gone; (3) with no override, an absent original
default fails with `DefaultChannelRequired` and a surviving one is left
unchanged. -/
theorem c2_default_channel_resolution :
    (∀ (p : Package) (cfg : v1.Package) (c : Channel),
      cfg.defaultChannel ≠ "" →
      p.findChannel cfg.defaultChannel = some c →
      setDefaultChannel p cfg = .ok ({ p with defaultChannel := c.name }, [])) ∧
    (∀ (p : Package) (cfg : v1.Package),
      cfg.defaultChannel ≠ "" →
      p.findChannel cfg.defaultChannel = none →
      (p.findChannel p.defaultChannel).isSome = true →
      setDefaultChannel p cfg = .ok (p, [overrideIgnoredWarn cfg.defaultChannel])) ∧
    (∀ (p : Package) (cfg : v1.Package),
      cfg.defaultChannel ≠ "" →
      p.findChannel cfg.defaultChannel = none →
      p.findChannel p.defaultChannel = none →
      setDefaultChannel p cfg =
        .error (DefaultChannelUnresolvable cfg.defaultChannel p.defaultChannel)) ∧
    (∀ (p : Package) (cfg : v1.Package),
      cfg.defaultChannel = "" →
      p.findChannel p.defaultChannel = none →
      setDefaultChannel p cfg = .error (DefaultChannelRequired p.defaultChannel)) ∧
    (∀ (p : Package) (cfg : v1.Package),
      cfg.defaultChannel = "" →
      (p.findChannel p.defaultChannel).isSome = true →
      setDefaultChannel p cfg = .ok (p, [])) := by
  refine ⟨?_, ?_, ?_, ?_, ?_⟩
  · intro p cfg c h1 h2
    rw [setDefaultChannel]
    simp [h1, h2]
  · intro p cfg h1 h2 h3
    rw [setDefaultChannel]
    simp [h1, h2, h3]
  · intro p cfg h1 h2 h3
    rw [setDefaultChannel]
    simp [h1, h2, h3]
  · intro p cfg h1 h2
    rw [setDefaultChannel]
    simp [h1, h2]
  · intro p cfg h1 h2
    rw [setDefaultChannel]
    simp [h1, h2]

/-- Witness for C2 exercising all five cases at concrete packages. -/
theorem c2_default_channel_resolution_witness :
    setDefaultChannel pkgP ⟨"p", "a", []⟩ =
      .ok ({ pkgP with defaultChannel := chanA.name }, []) ∧
    setDefaultChannel pkgP ⟨"p", "zzz", []⟩ =
      .ok (pkgP, [overrideIgnoredWarn "zzz"]) ∧
    setDefaultChannel pkgGone ⟨"p", "zzz", []⟩ =
      .error (DefaultChannelUnresolvable "zzz" "gone") ∧
    setDefaultChannel pkgGone ⟨"p", "", []⟩ =
      .error (DefaultChannelRequired "gone") ∧
    setDefaultChannel pkgP ⟨"p", "", []⟩ = .ok (pkgP, []) :=
  ⟨c2_default_channel_resolution.1 pkgP ⟨"p", "a", []⟩ chanA (by decide) (by decide),
   c2_default_channel_resolution.2.1 pkgP ⟨"p", "zzz", []⟩ (by decide) (by decide) (by decide),
   c2_default_channel_resolution.2.2.1 pkgGone ⟨"p", "zzz", []⟩ (by decide) (by decide) (by decide),
   c2_default_channel_resolution.2.2.2.1 pkgGone ⟨"p", "", []⟩ (by decide) (by decide),
   c2_default_channel_resolution.2.2.2.2 pkgP ⟨"p", "", []⟩ (by decide) (by decide)⟩

/-- C3: when no bundle on the channel's replaces chain satisfies the range
directly or through a resolvable skip target, `filterBundles` collects
nothing and fails with the `NoBundlesInRange` error, whose message contains
the package name, the channel name and the range expression; no new bundle
mapping is produced (the only success constructor, which carries the replaced
mapping, is not returned — line 258 is unreached). -/
theorem c3_no_bundles_in_range_error :
    ∀ (check : RangeCheck) (ch : Channel) (rs : String) (fuel : Nat) (hd : Bundle),
      ch.head = .ok hd →
      chainEnds ch fuel hd = true →
      (∀ b ∈ segList ch none fuel (some hd),
        check b.version = false ∧ skipMatches check ch b = false) →
      filterBundlesCore check rs ch fuel =
        .ok (.error (noBundlesMsg ch.name ch.pkgName rs)) ∧
      (∃ pre post, noBundlesMsg ch.name ch.pkgName rs = pre ++ ch.pkgName ++ post) ∧
      (∃ pre post, noBundlesMsg ch.name ch.pkgName rs = pre ++ ch.name ++ post) ∧
      (∃ pre post, noBundlesMsg ch.name ch.pkgName rs = pre ++ rs ++ post) := by
  intro check ch rs fuel hd hh hce hseg
  refine ⟨?_, ?_, ?_, ?_⟩
  · have h1 := headLoop_no_match check ch fuel hd hce hseg
    simp only [filterBundlesCore, hh, h1, tailLoop_exhausted, collectLoop_nil_nil]
    rfl
  · refine ⟨"invalid filter configuration: no bundles in channel " ++ quoted ch.name ++
      " for package " ++ "\"", "\"" ++ " matched the version range " ++ quoted rs, ?_⟩
    simp only [noBundlesMsg, quoted, String.append_assoc]
  · refine ⟨"invalid filter configuration: no bundles in channel " ++ "\"",
      "\"" ++ " for package " ++ quoted ch.pkgName ++
        " matched the version range " ++ quoted rs, ?_⟩
    simp only [noBundlesMsg, quoted, String.append_assoc]
  · refine ⟨"invalid filter configuration: no bundles in channel " ++ quoted ch.name ++
      " for package " ++ quoted ch.pkgName ++ " matched the version range " ++ "\"",
      "\"", ?_⟩
    simp only [noBundlesMsg, quoted, String.append_assoc]

/-- Witness for C3 at Scenario C: the chain v1.0.0→v1.1.0→v2.0.0 filtered by
the unsatisfiable range ">=2.0.0 <2.0.0". -/
theorem c3_no_bundles_in_range_error_witness :
    chainEnds chB 10 b20 = true ∧
    filterBundlesCore unsatRange ">=2.0.0 <2.0.0" chB 10 =
      .ok (.error (noBundlesMsg "stable" "foo" ">=2.0.0 <2.0.0")) :=
  ⟨by decide,
   (c3_no_bundles_in_range_error unsatRange chB ">=2.0.0 <2.0.0" 10 b20 rfl
     (by decide) (by decide)).1⟩

/-- The collection loop never dereferences nil when the tail boundary is nil:
the loop condition `cur != tail` then coincides with the nil check. -/
theorem collectLoop_tail_none_no_panic (check : RangeCheck) (ch : Channel) (rs : String) :
    ∀ (fuel : Nat) (cur : Option Bundle) (acc : List Bundle) (ws : List String),
      collectLoop check ch rs none fuel cur acc ws ≠ .nilPanic := by
  intro fuel
  induction fuel with
  | zero =>
    intro cur acc ws
    cases cur with
    | none =>
      rw [collectLoop]
      simp [sameBundle]
    | some c =>
      rw [collectLoop]
      split <;> simp
  | succ fuel ih =>
    intro cur acc ws
    cases cur with
    | none =>
      rw [collectLoop]
      simp [sameBundle]
    | some c =>
      rw [collectLoop]
      split
      · simp
      · exact ih _ _ _

/-- C10: when the head search exhausts the chain without a match, it ends with
both the retained head and the cursor nil; the tail search then ends
immediately with a nil tail, the collection loop runs zero iterations (its
condition `cur != tail` fails at once), and `filterBundles` returns the
empty-set error — no nil bundle pointer is ever dereferenced.  The second
conjunct states the general safety fact for the collection loop, whose
condition is a tail comparison rather than a nil check: with a nil tail it can
never reach the dereference with `cur = nil`.  (The head- and tail-search
loops dereference `cur` only under their explicit `cur != nil` conditions,
which the embedding encodes by matching on `cur` before any field access.) -/
theorem c10_empty_collection_no_nil_deref :
    (∀ (check : RangeCheck) (ch : Channel) (rs : String) (fuel : Nat) (hd : Bundle),
      ch.head = .ok hd →
      chainEnds ch fuel hd = true →
      (∀ b ∈ segList ch none fuel (some hd),
        check b.version = false ∧ skipMatches check ch b = false) →
      headLoop check ch fuel (some hd) = some (none, none) ∧
      tailLoop check ch fuel none = some none ∧
      collectLoop check ch rs none fuel none [] [] = .ok ([], []) ∧
      filterBundlesCore check rs ch fuel =
        .ok (.error (noBundlesMsg ch.name ch.pkgName rs))) ∧
    (∀ (check : RangeCheck) (ch : Channel) (rs : String) (fuel : Nat)
        (cur : Option Bundle) (acc : List Bundle) (ws : List String),
      collectLoop check ch rs none fuel cur acc ws ≠ .nilPanic) := by
  constructor
  · intro check ch rs fuel hd hh hce hseg
    have h1 := headLoop_no_match check ch fuel hd hce hseg
    refine ⟨h1, tailLoop_exhausted check ch fuel,
      collectLoop_nil_nil check ch rs fuel [] [], ?_⟩
    simp only [filterBundlesCore, hh, h1, tailLoop_exhausted, collectLoop_nil_nil]
    rfl
  · intro check ch rs
    exact collectLoop_tail_none_no_panic check ch rs

/-- Witness for C10 at a single-bundle channel with a range matching
nothing. -/
theorem c10_empty_collection_no_nil_deref_witness :
    chW.head = .ok w1 ∧
    headLoop falseCheck chW 10 (some w1) = some (none, none) ∧
    collectLoop falseCheck chW "<0.0.0" none 10 none [] [] = .ok ([], []) ∧
    filterBundlesCore falseCheck "<0.0.0" chW 10 =
      .ok (.error (noBundlesMsg "alpha" "bar" "<0.0.0")) := by
  have h := c10_empty_collection_no_nil_deref.1 falseCheck chW "<0.0.0" 10 w1 rfl
    (by decide) (by decide)
  exact ⟨rfl, h.1, h.2.2.1, h.2.2.2⟩

/-- C1 counterexample: the claim's trichotomy fails when the retained head is
kept only because of an in-range skip target.  In `chCx` the head v3.0.0 is
out of range, sits *above* the only in-range bundle v1.2.0 (so not strictly
between the newest and the oldest in-range bundle), and is nobody's skip
target — yet `filterBundles` retains it. -/
theorem c1_counterexample_skip_retained_head :
    c1ClaimHolds chkCx "1.2.0" chCx 10 = false := by decide

/-- C1 (amended): every bundle retained by a successful `filterBundles` either
lies on the collected replaces-chain segment from the retained head up to
(excluding) the tail boundary, or satisfies the range and is a resolvable skip
target of a segment bundle; and Scenario B returns exactly
{v2.0.0, v1.1.0} with v1.0.0 dropped and no warning. -/
theorem c1_retained_bundles_on_segment_or_skips :
    (∀ (check : RangeCheck) (rs : String) (ch : Channel) (fuel : Nat)
        (ch' : Channel) (warns : List String),
      filterBundlesCore check rs ch fuel = .ok (.ok (ch', warns)) →
      ∃ hd headB cur1 tailB,
        ch.head = .ok hd ∧
        headLoop check ch fuel (some hd) = some (headB, cur1) ∧
        tailLoop check ch fuel cur1 = some tailB ∧
        ∀ b ∈ ch'.bundles,
          b ∈ segList ch tailB fuel headB ∨
            (check b.version = true ∧
              ∃ c ∈ segList ch tailB fuel headB, ∃ s ∈ c.skips, ch.find s = some b)) ∧
    filterBundlesCore ge110 ">=1.1.0" chB 10 =
      .ok (.ok ({ chB with bundles := [b20, b11] }, [])) := by
  constructor
  · intro check rs ch fuel ch' warns h
    rw [filterBundlesCore] at h
    cases hh : ch.head with
    | error e =>
      rw [hh] at h
      simp at h
    | ok hd =>
      rw [hh] at h
      simp only at h
      cases hhl : headLoop check ch fuel (some hd) with
      | none =>
        rw [hhl] at h
        simp at h
      | some pr =>
        obtain ⟨headB, cur1⟩ := pr
        rw [hhl] at h
        simp only at h
        cases htl : tailLoop check ch fuel cur1 with
        | none =>
          rw [htl] at h
          simp at h
        | some tailB =>
          rw [htl] at h
          simp only at h
          cases hcl : collectLoop check ch rs tailB fuel headB [] [] with
          | diverge =>
            rw [hcl] at h
            simp at h
          | nilPanic =>
            rw [hcl] at h
            simp at h
          | ok res =>
            obtain ⟨bundles, warns2⟩ := res
            rw [hcl] at h
            simp only at h
            split at h
            · simp at h
            · simp only [LoopRes.ok.injEq, Except.ok.injEq, Prod.mk.injEq] at h
              obtain ⟨hch', hw⟩ := h
              refine ⟨hd, headB, cur1, tailB, rfl, hhl, htl, ?_⟩
              intro b hb
              rw [← hch'] at hb
              simp only at hb
              rcases collectLoop_ok_mem check ch rs tailB fuel headB [] [] bundles warns2
                  hcl b hb with habs | hm | hm
              · cases habs
              · exact Or.inl hm
              · exact Or.inr hm
  · rfl

/-- Witness for C1's amended theorem at Scenario B. -/
theorem c1_retained_bundles_witness :
    filterBundlesCore ge110 ">=1.1.0" chB 10 =
      .ok (.ok ({ chB with bundles := [b20, b11] }, [])) ∧
    (∃ hd headB cur1 tailB,
      chB.head = .ok hd ∧
      headLoop ge110 chB 10 (some hd) = some (headB, cur1) ∧
      tailLoop ge110 chB 10 cur1 = some tailB ∧
      ∀ b ∈ ({ chB with bundles := [b20, b11] } : Channel).bundles,
        b ∈ segList chB tailB 10 headB ∨
          (ge110 b.version = true ∧
            ∃ c ∈ segList chB tailB 10 headB, ∃ s ∈ c.skips, chB.find s = some b)) :=
  ⟨rfl, c1_retained_bundles_on_segment_or_skips.1 ge110 ">=1.1.0" chB 10 _ _ rfl⟩

/-- C4: the warnings emitted by the collection loop are exactly one per
traversed chain-segment bundle that does not itself satisfy the range, in
traversal order — skip targets added because they satisfy the range are never
warned about.  In the Scenario E channel (out-of-range v1.5.0 between head
v2.0.0 and the in-range skip target v1.2.0) the bundle v1.2.0 is retained with
no warning while exactly one warning names v1.5.0. -/
theorem c4_warnings_exactly_out_of_range_chain_bundles :
    (∀ (check : RangeCheck) (ch : Channel) (rs : String) (tailB : Option Bundle)
        (fuel : Nat) (cur : Option Bundle) (bundles : List Bundle) (warns : List String),
      collectLoop check ch rs tailB fuel cur [] [] = .ok (bundles, warns) →
      warns = ((segList ch tailB fuel cur).filter (fun b => !check b.version)).map
          (fun b => includeWarnMsg b.name b.version.toStr ch.name ch.pkgName rs)) ∧
    filterBundlesCore chkE rsE chE 10 =
      .ok (.ok ({ chE with bundles := [e20, e12, e15] },
        [includeWarnMsg "v1.5.0" "1.5.0" "stable" "foo" rsE])) ∧
    e12 ∈ [e20, e12, e15] ∧
    includeWarnMsg "v1.2.0" "1.2.0" "stable" "foo" rsE ∉
      [includeWarnMsg "v1.5.0" "1.5.0" "stable" "foo" rsE] := by
  refine ⟨?_, rfl, by decide, by decide⟩
  intro check ch rs tailB fuel cur bundles warns h
  simpa using collectLoop_ok_warns check ch rs tailB fuel cur [] [] bundles warns h

/-- Witness for C4's general conjunct at the Scenario E collection run. -/
theorem c4_warnings_witness :
    collectLoop chkE chE rsE none 10 (some e20) [] [] =
      .ok ([e20, e12, e15], [includeWarnMsg "v1.5.0" "1.5.0" "stable" "foo" rsE]) ∧
    [includeWarnMsg "v1.5.0" "1.5.0" "stable" "foo" rsE] =
      ((segList chE none 10 (some e20)).filter (fun b => !chkE b.version)).map
        (fun b => includeWarnMsg b.name b.version.toStr chE.name chE.pkgName rsE) :=
  ⟨rfl,
   c4_warnings_exactly_out_of_range_chain_bundles.1 chkE chE rsE none 10 (some e20) _ _ rfl⟩

/-- C8 counterexample: configuration `cfgC8` names only package "p" (present
in the catalog) and carries no version-range expression anywhere, yet
`filterV1` fails rather than succeeding with the package unchanged: the
channel allow-list `["b"]` prunes away the default channel "a" and
`setDefaultChannel` errors. -/
theorem c8_counterexample_channel_pruning :
    (cfgC8.packages.all (fun p => ([pkgP] : Model).any (fun pk => pk.name == p.name))) = true ∧
    (cfgC8.packages.all (fun p => p.channels.all (fun c => c.versionRange == ""))) = true ∧
    filterV1Model parseStub [pkgP] cfgC8 10 = .ok (.error c8msg) := by
  exact ⟨by decide, by decide, rfl⟩

/-- In a model whose package names are unique, any member sharing the name of
the package returned by `find?` is that package. -/
theorem find?_name_unique :
    ∀ (m : Model) (n : String) (pkg : Package),
      (m.map (fun pk => pk.name)).Nodup →
      m.find? (fun pk => pk.name == n) = some pkg →
      ∀ pk ∈ m, pk.name = n → pk = pkg := by
  intro m n
  induction m with
  | nil =>
    intro pkg _ hf
    cases hf
  | cons q rest ih =>
    intro pkg hnd hf pk hpk hname
    rw [List.map_cons, List.nodup_cons] at hnd
    obtain ⟨hq, hnd'⟩ := hnd
    by_cases hqn : (q.name == n) = true
    · rw [List.find?_cons] at hf
      simp only [hqn] at hf
      injection hf with hf
      subst hf
      rcases List.mem_cons.mp hpk with h | h
      · exact h
      · exfalso
        apply hq
        have hmem : pk.name ∈ rest.map (fun pk => pk.name) := List.mem_map_of_mem _ h
        have hqn' : q.name = n := by simpa using hqn
        rw [hqn', ← hname]
        exact hmem
    · have hqn' : (q.name == n) = false := by simpa using hqn
      rw [List.find?_cons] at hf
      simp only [hqn'] at hf
      rcases List.mem_cons.mp hpk with h | h
      · exfalso
        apply hqn
        have : q.name = n := by rw [← h]; exact hname
        simpa using this
      · exact ih pkg hnd' hf pk h hname

/-- Writing the package found by name back into the model (as `filterV1` does
after processing it) leaves a unique-name model unchanged when the written
package is the found one. -/
theorem map_update_self :
    ∀ (m : Model) (n : String) (pkg : Package),
      (m.map (fun pk => pk.name)).Nodup →
      m.find? (fun pk => pk.name == n) = some pkg →
      m.map (fun pk => if pk.name == n then pkg else pk) = m := by
  intro m n pkg hnd hf
  have huniq := find?_name_unique m n pkg hnd hf
  have hid : ∀ pk ∈ m, (if pk.name == n then pkg else pk) = pk := by
    intro pk hpk
    by_cases hqn : (pk.name == n) = true
    · rw [if_pos hqn]
      exact (huniq pk hpk (by simpa using hqn)).symm
    · exact if_neg hqn
  rw [List.map_congr_left hid, List.map_id']

/-- The per-package loop of `filterV1` leaves the model untouched and emits no
warnings when every configured package is present, lists no channels, and sets
no default-channel override, and every package validates. -/
theorem processPackages_unchanged (parse : String → Except String RangeCheck) (fuel : Nat) :
    ∀ (cfgPkgs : List v1.Package) (m : Model),
      (m.map (fun pk => pk.name)).Nodup →
      (∀ p ∈ cfgPkgs, p.channels = [] ∧ p.defaultChannel = "") →
      (∀ p ∈ cfgPkgs, (m.find? (fun pk => pk.name == p.name)).isSome = true) →
      (∀ pk ∈ m, validatePackage pk = true) →
      processPackages parse fuel cfgPkgs m = .ok (.ok (m, [])) := by
  intro cfgPkgs
  induction cfgPkgs with
  | nil =>
    intro m _ _ _ _
    rfl
  | cons p rest ih =>
    intro m hnd hcfg hfind hval
    obtain ⟨hch, hdc⟩ := hcfg p (List.mem_cons_self _ _)
    obtain ⟨pkg, hpkg⟩ := Option.isSome_iff_exists.mp (hfind p (List.mem_cons_self _ _))
    have hpkgmem : pkg ∈ m := List.mem_of_find?_eq_some hpkg
    have hval1 := hval pkg hpkgmem
    have hdflt : (pkg.findChannel pkg.defaultChannel).isSome = true := by
      rw [validatePackage, Bool.and_eq_true] at hval1
      exact hval1.1
    have hfc : filterChannels pkg p = .ok (pkg, []) := by
      rw [filterChannels, hch]
      simp only [List.length_nil, gt_iff_lt, lt_self_iff_false, if_false]
      rw [setDefaultChannel, hdc]
      simp [hdflt]
    have hupd : m.map (fun pk => if pk.name == p.name then pkg else pk) = m :=
      map_update_self m p.name pkg hnd hpkg
    have hihm := ih m hnd (fun p' hp' => hcfg p' (List.mem_cons_of_mem _ hp'))
      (fun p' hp' => hfind p' (List.mem_cons_of_mem _ hp')) hval
    rw [processPackages, hpkg]
    simp only [hfc, hch, processChannels, hupd, hihm]
    simp

/-- C8 (amended): for every configuration that names only packages present in
the catalog and carries no channel specs and no default-channel overrides
(hence no range expressions), `filterV1` succeeds with no warnings; the result
holds exactly the configured packages, each the unchanged original element of
the input catalog, and every other package is removed. -/
theorem c8_range_free_filtering_keeps_packages :
    ∀ (parse : String → Except String RangeCheck) (m : Model)
      (cfg : v1.FilterConfiguration) (fuel : Nat),
      (m.map (fun pk => pk.name)).Nodup →
      (∀ p ∈ cfg.packages, m.any (fun pk => pk.name == p.name) = true) →
      (∀ p ∈ cfg.packages, p.channels = [] ∧ p.defaultChannel = "") →
      (∀ pk ∈ m, validatePackage pk = true) →
      filterV1Model parse m cfg fuel =
        .ok (.ok (filterPackages m cfg.packages, [])) ∧
      (∀ pk ∈ filterPackages m cfg.packages, pk ∈ m) ∧
      (∀ pk ∈ m, (pk ∈ filterPackages m cfg.packages ↔
        (cfg.packages.map (fun p => p.name)).contains pk.name = true)) := by
  intro parse m cfg fuel hnd hpres hcfg hval
  have hval1 : ∀ pk ∈ filterPackages m cfg.packages, validatePackage pk = true := by
    intro pk hpk
    exact hval pk (List.mem_filter.mp hpk).1
  have hnd1 : ((filterPackages m cfg.packages).map (fun pk => pk.name)).Nodup :=
    List.Nodup.sublist (List.Sublist.map _ (List.filter_sublist m)) hnd
  have hfind1 : ∀ p ∈ cfg.packages,
      ((filterPackages m cfg.packages).find? (fun pk => pk.name == p.name)).isSome = true := by
    intro p hp
    rw [List.find?_isSome]
    obtain ⟨pk, hpkm, hpkn⟩ := List.any_eq_true.mp (hpres p hp)
    refine ⟨pk, ?_, hpkn⟩
    rw [filterPackages, List.mem_filter]
    refine ⟨hpkm, ?_⟩
    have hpname : p.name ∈ cfg.packages.map (fun p => p.name) := List.mem_map_of_mem _ hp
    have hname : pk.name = p.name := by simpa using hpkn
    rw [hname]
    simpa [List.contains] using hpname
  have hpp := processPackages_unchanged parse fuel cfg.packages
    (filterPackages m cfg.packages) hnd1 hcfg hfind1 hval1
  have hvm : validateModel (filterPackages m cfg.packages) = true :=
    List.all_eq_true.mpr hval1
  refine ⟨?_, fun pk hpk => (List.mem_filter.mp hpk).1, ?_⟩
  · simp [filterV1Model, hpp, hvm]
  · intro pk hpk
    rw [filterPackages, List.mem_filter]
    constructor
    · intro h
      exact h.2
    · intro h
      exact ⟨hpk, h⟩

/-- Witness for C8's amended theorem: catalog `[pkgP]` filtered by the
channel-free configuration `cfgC8W`. -/
theorem c8_range_free_filtering_witness :
    (∀ pk ∈ ([pkgP] : Model), validatePackage pk = true) ∧
    (filterV1Model parseStub [pkgP] cfgC8W 10 =
      .ok (.ok (filterPackages [pkgP] cfgC8W.packages, [])) ∧
    (∀ pk ∈ filterPackages ([pkgP] : Model) cfgC8W.packages, pk ∈ ([pkgP] : Model)) ∧
    (∀ pk ∈ ([pkgP] : Model), (pk ∈ filterPackages ([pkgP] : Model) cfgC8W.packages ↔
      (cfgC8W.packages.map (fun p => p.name)).contains pk.name = true))) :=
  ⟨by decide,
   c8_range_free_filtering_keeps_packages parseStub [pkgP] cfgC8W 10
     (by decide) (by decide) (by decide) (by decide)⟩

end FbcFilter
